import Mathlib

/-!
Verification development for the currency exchange dashboard (`src/app.py`):
a shallow embedding of the synthetic data generator `load_data` and of the
filter/analytics engine (filtering, summary metrics, per-pair statistics,
basket series, risk buckets), together with theorems settling the stated
properties of that code.

Modelling conventions:
* Calendar dates are represented by their Gregorian day ordinal (a natural
  number, via `daysFromCivil`); `pd.date_range(s, e, freq=D)` becomes the
  inclusive ordinal range `rangeDays`, and `timedelta(days=n)` becomes
  subtraction of `n` on ordinals.
* Exchange rates are exact reals; numpy float arithmetic is idealized as ℝ,
  and Python `round(x, 4)` is round-to-nearest with ties to even.
* The two random sources are explicit oracles: `rc i p` is the standard
  normal draw for day index `i` and pair `p` (so that
  `np.random.normal(0, vol) = vol * rc i p`), and `vr i p` is the value
  returned by `np.random.randint(1000000, 8000000)`; the randint contract
  (result in `[1000000, 8000000)`) enters theorems as a hypothesis.
* The pandas sample standard deviation (`ddof = 1`) of a series with fewer
  than two entries is NaN.  A possibly-NaN statistic is modelled as
  `Option ℝ` with `none` for NaN, and the fact that every comparison with
  NaN is false is encoded in the boolean comparison helpers below.
-/

/-- Gregorian civil date to day ordinal (days since 0000-03-01 of the
proleptic Gregorian calendar), valid for years ≥ 1.  Used to give
`pd.Timestamp` dates a concrete, order-preserving numeric model. -/
def daysFromCivil (y m d : ℕ) : ℕ :=
  let y2 := if m ≤ 2 then y - 1 else y
  let era := y2 / 400
  let yoe := y2 - era * 400
  let doy := (153 * (if 2 < m then m - 3 else m + 9) + 2) / 5 + d - 1
  let doe := yoe * 365 + yoe / 4 - yoe / 100 + doy
  era * 146097 + doe

/-- Inclusive daily range of day ordinals: the model of
`pd.date_range(start=s, end=e, freq=D)` (both endpoints included). -/
def rangeDays (s e : ℕ) : List ℕ := (List.range (e - s + 1)).map (s + ·)

/-- One dataset row: the dict appended in `load_data`
(`Date`, `Currency_Pair`, `Exchange_Rate`, `Volume`). -/
structure Row where
  date : ℕ
  pair : String
  rate : ℝ
  volume : ℕ

/-- The fixed pair table of `load_data`: name, base rate, volatility. -/
def pairsConfig : List (String × ℝ × ℝ) :=
  [("USD/EUR", 0.85, 0.01),
   ("USD/GBP", 0.75, 0.012),
   ("USD/JPY", 110.0, 1.5),
   ("USD/INR", 83.0, 0.8),
   ("EUR/GBP", 0.88, 0.008),
   ("GBP/INR", 110.0, 1.2)]

/-- `trend = np.sin(i * 0.02) * 0.05` — the seasonal oscillation. -/
noncomputable def trend (i : ℕ) : ℝ := Real.sin (i * 0.02) * 0.05

/-- Round a real to the nearest integer, ties to even: the rounding mode of
Python's `round`. -/
noncomputable def roundTiesEven (x : ℝ) : ℤ :=
  if Int.fract x < 1/2 then ⌊x⌋
  else if 1/2 < Int.fract x then ⌈x⌉
  else if 2 ∣ ⌊x⌋ then ⌊x⌋ else ⌊x⌋ + 1

/-- `round(x, 4)`: round to 4 decimal places. -/
noncomputable def round4 (x : ℝ) : ℝ := (roundTiesEven (x * 10000) : ℝ) / 10000

/-- `rate = round(base * (1 + trend + random_change), 4)` where
`random_change = np.random.normal(0, vol) = vol * z` for a standard normal
draw `z`. -/
noncomputable def mkRate (base vol : ℝ) (i : ℕ) (z : ℝ) : ℝ :=
  round4 (base * (1 + trend i + vol * z))

/-- The generation loop of `load_data`, with the running `enumerate` index
made explicit: for each date (at index `i`) one row per configured pair. -/
noncomputable def genFrom (rc : ℕ → String → ℝ) (vr : ℕ → String → ℕ) :
    ℕ → List ℕ → List Row
  | _, [] => []
  | i, d :: ds =>
      (pairsConfig.map fun p =>
        { date := d, pair := p.1, rate := mkRate p.2.1 p.2.2 i (rc i p.1),
          volume := vr i p.1 })
      ++ genFrom rc vr (i + 1) ds

/-- The generator: one `Row` per (day, pair) of the given date range,
iterated in `enumerate` order (dates outer, pairs inner). -/
noncomputable def generate (dates : List ℕ) (rc : ℕ → String → ℝ)
    (vr : ℕ → String → ℕ) : List Row :=
  genFrom rc vr 0 dates

/-- `load_data`: one year of daily data, 2023-01-01 through 2024-01-01,
both endpoints included by `pd.date_range`. -/
noncomputable def load_data (rc : ℕ → String → ℝ) (vr : ℕ → String → ℕ) :
    List Row :=
  generate (rangeDays (daysFromCivil 2023 1 1) (daysFromCivil 2024 1 1)) rc vr

/-- `today = df['Date'].max()` (the program only evaluates this on the
non-empty generated dataset; the default covers the empty list). -/
def today (df : List Row) : ℕ := ((df.map Row.date).max?).getD 0

/-- `df['Date'].min()` — the start date used for the `else` (full-year)
branch of the period selector. -/
def earliest (df : List Row) : ℕ := ((df.map Row.date).min?).getD 0

/-- The period-to-start-date chain of `app.py` lines 70–79:
`Last 30 Days`, `Last 90 Days`, `Last 6 Months` subtract 30/90/180 days
from the dataset maximum; any other choice (the UI offers `Last Year`)
falls through to the dataset minimum. -/
def start_date (df : List Row) (period : String) : ℕ :=
  if period = "Last 30 Days" then today df - 30
  else if period = "Last 90 Days" then today df - 90
  else if period = "Last 6 Months" then today df - 180
  else earliest df

/-- `filtered_data = df[(df['Currency_Pair'].isin(currencies)) & (df['Date'] >= start_date)]`. -/
def filtered_data (df : List Row) (currencies : List String) (period : String) :
    List Row :=
  df.filter fun r => currencies.contains r.pair && decide (start_date df period ≤ r.date)

/-- `Series.mean()`: sum divided by length. -/
noncomputable def meanR (xs : List ℝ) : ℝ := xs.sum / xs.length

/-- Sample variance with `ddof = 1` (the pandas default). -/
noncomputable def sampleVar (xs : List ℝ) : ℝ :=
  (xs.map fun x => (x - meanR xs) ^ 2).sum / ((xs.length : ℝ) - 1)

/-- `Series.std()`: NaN (`none`) for fewer than two entries, else the
square root of the `ddof = 1` sample variance. -/
noncomputable def stdList (xs : List ℝ) : Option ℝ :=
  if xs.length ≤ 1 then none else some (Real.sqrt (sampleVar xs))

/-- The three risk labels used by the dashboard. -/
inductive RiskTier where
  | Low : RiskTier
  | Medium : RiskTier
  | High : RiskTier
deriving DecidableEq, Repr

/-- The inline classification of `app.py` line 120 and line 227 (identical
expressions up to emoji labels):
`"High" if vol > 5 else "Medium" if vol > 1 else "Low"`.
A NaN volatility (`none`) compares false in both tests and yields `Low`. -/
noncomputable def risk (vol : Option ℝ) : RiskTier :=
  match vol with
  | none => .Low
  | some v => if 5 < v then .High else if 1 < v then .Medium else .Low

/-- The four key metrics of lines 95–126. -/
structure Summary where
  pair_count : ℕ
  average_rate : ℝ
  total_volume_millions : ℝ
  risk_level : RiskTier

/-- `len(currencies)`, `filtered_data['Exchange_Rate'].mean()`,
`filtered_data['Volume'].sum() / 1000000`, and the risk label computed from
`filtered_data['Exchange_Rate'].std()`. -/
noncomputable def summary (view : List Row) (currencies : List String) : Summary :=
  { pair_count := currencies.length
    average_rate := meanR (view.map Row.rate)
    total_volume_millions := ((view.map Row.volume).sum : ℝ) / 1000000
    risk_level := risk (stdList (view.map Row.rate)) }

/-- `filtered_data[filtered_data['Currency_Pair'] == currency]`. -/
def pairRows (view : List Row) (c : String) : List Row :=
  view.filter fun r => r.pair == c

/-- The `Exchange_Rate` series of one pair inside the view. -/
def pairRates (view : List Row) (c : String) : List ℝ :=
  (pairRows view c).map Row.rate

/-- `filtered_data[filtered_data['Currency_Pair'] == curr]['Exchange_Rate'].std()`. -/
noncomputable def pairStd (view : List Row) (c : String) : Option ℝ :=
  stdList (pairRates view c)

/-- One row of the detailed statistics table (lines 229–237).  The display
formatting (4 or 3 decimal places) is presentation and not modelled; the
fields hold the underlying values, with `volatility = none` for NaN. -/
structure PairStatRow where
  pair : String
  current_rate : ℝ
  peak_rate : ℝ
  lowest_rate : ℝ
  average_rate : ℝ
  volatility : Option ℝ
  risk_level : RiskTier

/-- The loop body of lines 223–237: statistics for one selected currency,
skipped (`none`) when the pair has no rows in the view.
`current_rate = curr_data.iloc[-1]` is the last element of the pair's
series in view order. -/
noncomputable def mkStat (view : List Row) (c : String) : Option PairStatRow :=
  let curr := pairRates view c
  if 0 < curr.length then
    some { pair := c
           current_rate := curr.getLast?.getD 0
           peak_rate := (curr.max?).getD 0
           lowest_rate := (curr.min?).getD 0
           average_rate := meanR curr
           volatility := stdList curr
           risk_level := risk (stdList curr) }
  else none

/-- `stats_data`: the statistics rows, iterating `currencies` in selection
order and keeping only pairs that have data. -/
noncomputable def stats_data (view : List Row) (currencies : List String) :
    List PairStatRow :=
  currencies.filterMap (mkStat view)

/-- `basket_data = filtered_data.groupby('Date')['Exchange_Rate'].mean()`:
one entry per distinct date of the view (pandas groups come out sorted by
key), holding the unweighted mean rate over all rows with that date. -/
noncomputable def basket_data (view : List Row) : List (ℕ × ℝ) :=
  (((view.map Row.date).dedup).mergeSort (fun a b => decide (a ≤ b))).map
    fun d => (d, meanR ((view.filter fun r => r.date == d).map Row.rate))

/-- NaN-aware strict `<` on a possibly-NaN float: any comparison with NaN
is false. -/
noncomputable def ltNaN (v : Option ℝ) (c : ℝ) : Bool :=
  match v with
  | none => false
  | some x => decide (x < c)

/-- NaN-aware `≥`. -/
noncomputable def geNaN (v : Option ℝ) (c : ℝ) : Bool :=
  match v with
  | none => false
  | some x => decide (c ≤ x)

/-- Line 251: `[curr for curr in currencies if ...std() < 1.0]`. -/
noncomputable def low_risk (currencies : List String) (view : List Row) :
    List String :=
  currencies.filter fun c => ltNaN (pairStd view c) 1

/-- Line 262: the chained test `1.0 <= ...std() < 5.0` (with NaN every
link is false). -/
noncomputable def med_risk (currencies : List String) (view : List Row) :
    List String :=
  currencies.filter fun c => geNaN (pairStd view c) 1 && ltNaN (pairStd view c) 5

/-- Line 273: `...std() >= 5.0`. -/
noncomputable def high_risk (currencies : List String) (view : List Row) :
    List String :=
  currencies.filter fun c => geNaN (pairStd view c) 5

/-- Everything the analytics pipeline computes past the empty-view guard. -/
structure Outputs where
  metrics : Summary
  stats : List PairStatRow
  basket : List (ℕ × ℝ)
  lowBucket : List String
  medBucket : List String
  highBucket : List String

/-- Result of one dashboard interaction: either the empty-selection warning
(`st.warning` followed by `st.stop()`, so nothing further is computed), or
the rendered analytics. -/
inductive DashResult where
  | emptyWarning : DashResult
  | rendered : Outputs → DashResult

/-- The script flow from line 82 on: filter, halt with a warning on an
empty view, otherwise compute all analytics for rendering. -/
noncomputable def runDashboard (df : List Row) (currencies : List String)
    (period : String) : DashResult :=
  let view := filtered_data df currencies period
  if view.isEmpty then .emptyWarning
  else .rendered
    { metrics := summary view currencies
      stats := stats_data view currencies
      basket := basket_data view
      lowBucket := low_risk currencies view
      medBucket := med_risk currencies view
      highBucket := high_risk currencies view }

/-! ### Helper lemmas: maxima and minima of natural-number lists -/

theorem seed_le_foldl_max (l : List ℕ) : ∀ a : ℕ, a ≤ l.foldl max a := by
  induction l with
  | nil => intro a; simp
  | cons b t ih =>
      intro a
      exact le_trans (le_max_left a b) (ih (max a b))

theorem mem_le_foldl_max (l : List ℕ) : ∀ a x : ℕ, x ∈ l → x ≤ l.foldl max a := by
  induction l with
  | nil => intro a x h; cases h
  | cons b t ih =>
      intro a x h
      rcases List.mem_cons.mp h with rfl | h
      · exact le_trans (le_max_right a x) (seed_le_foldl_max t _)
      · exact ih _ x h

theorem foldl_max_choice (l : List ℕ) :
    ∀ a : ℕ, l.foldl max a = a ∨ l.foldl max a ∈ l := by
  induction l with
  | nil => intro a; left; rfl
  | cons b t ih =>
      intro a
      rcases ih (max a b) with h | h
      · rcases max_choice a b with he | he
        · left; rw [List.foldl_cons, h, he]
        · right; rw [List.foldl_cons, h, he]; exact List.mem_cons_self _ _
      · right; exact List.mem_cons_of_mem _ h

theorem foldl_min_le_seed (l : List ℕ) : ∀ a : ℕ, l.foldl min a ≤ a := by
  induction l with
  | nil => intro a; simp
  | cons b t ih =>
      intro a
      exact le_trans (ih (min a b)) (min_le_left a b)

theorem foldl_min_le_mem (l : List ℕ) : ∀ a x : ℕ, x ∈ l → l.foldl min a ≤ x := by
  induction l with
  | nil => intro a x h; cases h
  | cons b t ih =>
      intro a x h
      rcases List.mem_cons.mp h with rfl | h
      · exact le_trans (foldl_min_le_seed t _) (min_le_right a x)
      · exact ih _ x h

theorem date_le_today {df : List Row} {r : Row} (h : r ∈ df) :
    r.date ≤ today df := by
  cases df with
  | nil => cases h
  | cons s t =>
      have h2 : today (s :: t) = (t.map Row.date).foldl max s.date := rfl
      rw [h2]
      rcases List.mem_cons.mp h with rfl | h
      · exact seed_le_foldl_max _ _
      · exact mem_le_foldl_max _ _ _ (List.mem_map_of_mem _ h)

theorem today_le_of_subset {l₁ l₂ : List Row} (h : ∀ x ∈ l₁, x ∈ l₂) :
    today l₁ ≤ today l₂ := by
  cases l₁ with
  | nil => simp [today]
  | cons s t =>
      have h1 : today (s :: t) = (t.map Row.date).foldl max s.date := rfl
      rw [h1]
      rcases foldl_max_choice (t.map Row.date) s.date with hc | hc
      · rw [hc]; exact date_le_today (h s (List.mem_cons_self s t))
      · obtain ⟨r, hr, hrd⟩ := List.mem_map.mp hc
        rw [← hrd]
        exact date_le_today (h r (List.mem_cons_of_mem _ hr))

theorem earliest_le {df : List Row} {r : Row} (h : r ∈ df) :
    earliest df ≤ r.date := by
  cases df with
  | nil => cases h
  | cons s t =>
      have h2 : earliest (s :: t) = (t.map Row.date).foldl min s.date := rfl
      rw [h2]
      rcases List.mem_cons.mp h with rfl | h
      · exact foldl_min_le_seed _ _
      · exact foldl_min_le_mem _ _ _ (List.mem_map_of_mem _ h)

/-! ### Helper lemmas: the period dispatch and the filter -/

theorem start_date_cases (p : String) :
    (∃ n : ℕ, (n = 30 ∨ n = 90 ∨ n = 180) ∧
      ∀ l : List Row, start_date l p = today l - n)
    ∨ (∀ l : List Row, start_date l p = earliest l) := by
  by_cases h1 : p = "Last 30 Days"
  · exact Or.inl ⟨30, Or.inl rfl, fun l => by simp [start_date, h1]⟩
  by_cases h2 : p = "Last 90 Days"
  · exact Or.inl ⟨90, Or.inr (Or.inl rfl), fun l => by simp [start_date, h1, h2]⟩
  by_cases h3 : p = "Last 6 Months"
  · exact Or.inl ⟨180, Or.inr (Or.inr rfl), fun l => by simp [start_date, h1, h2, h3]⟩
  · exact Or.inr (fun l => by simp [start_date, h1, h2, h3])

theorem mem_filtered_data {df : List Row} {cs : List String} {p : String}
    {r : Row} :
    r ∈ filtered_data df cs p ↔
      r ∈ df ∧ r.pair ∈ cs ∧ start_date df p ≤ r.date := by
  simp [filtered_data, List.mem_filter, and_assoc]

/-! ### Helper lemmas: the shape of the generated dataset -/

theorem genFrom_length (rc : ℕ → String → ℝ) (vr : ℕ → String → ℕ) :
    ∀ (i : ℕ) (ds : List ℕ), (genFrom rc vr i ds).length = ds.length * 6 := by
  intro i ds
  induction ds generalizing i with
  | nil => simp [genFrom]
  | cons d t ih =>
      simp only [genFrom, List.length_append, List.length_map, List.length_cons,
        ih (i + 1)]
      simp [pairsConfig]
      omega

theorem date_mem_of_mem_genFrom (rc : ℕ → String → ℝ) (vr : ℕ → String → ℕ) :
    ∀ (i : ℕ) (ds : List ℕ) (r : Row), r ∈ genFrom rc vr i ds → r.date ∈ ds := by
  intro i ds
  induction ds generalizing i with
  | nil => intro r h; simp [genFrom] at h
  | cons d t ih =>
      intro r h
      simp only [genFrom] at h
      rcases List.mem_append.mp h with h | h
      · obtain ⟨p, _, rfl⟩ := List.mem_map.mp h
        exact List.mem_cons_self _ _
      · exact List.mem_cons_of_mem _ (ih (i + 1) r h)

theorem volume_of_mem_genFrom (rc : ℕ → String → ℝ) (vr : ℕ → String → ℕ) :
    ∀ (i : ℕ) (ds : List ℕ) (r : Row), r ∈ genFrom rc vr i ds →
      ∃ k c, r.volume = vr k c := by
  intro i ds
  induction ds generalizing i with
  | nil => intro r h; simp [genFrom] at h
  | cons d t ih =>
      intro r h
      simp only [genFrom] at h
      rcases List.mem_append.mp h with h | h
      · obtain ⟨p, _, rfl⟩ := List.mem_map.mp h
        exact ⟨i, p.1, rfl⟩
      · exact ih (i + 1) r h

/-- Rows are identified by their (date, pair) key; this is the negation
used to state key uniqueness pairwise. -/
def keyNe (a b : Row) : Prop := ¬(a.date = b.date ∧ a.pair = b.pair)

theorem pairsConfig_fst_pairwise :
    pairsConfig.Pairwise fun a b => a.1 ≠ b.1 := by
  have h : (pairsConfig.map Prod.fst).Nodup := by decide
  exact List.pairwise_map.mp h

theorem genFrom_key_pairwise (rc : ℕ → String → ℝ) (vr : ℕ → String → ℕ) :
    ∀ (i : ℕ) (ds : List ℕ), ds.Nodup → (genFrom rc vr i ds).Pairwise keyNe := by
  intro i ds
  induction ds generalizing i with
  | nil => intro _; simp [genFrom]
  | cons d t ih =>
      intro hnd
      rw [List.nodup_cons] at hnd
      simp only [genFrom]
      refine List.pairwise_append.mpr ⟨?_, ih (i + 1) hnd.2, ?_⟩
      · refine List.pairwise_map.mpr (pairsConfig_fst_pairwise.imp ?_)
        intro a b hne hk
        exact hne hk.2
      · intro a ha b hb
        obtain ⟨p, _, rfl⟩ := List.mem_map.mp ha
        have hbd : b.date ∈ t := date_mem_of_mem_genFrom rc vr _ _ _ hb
        intro hk
        rw [← hk.1] at hbd
        exact hnd.1 hbd

/-- Weak date order between rows, in generation order. -/
def dateLE (a b : Row) : Prop := a.date ≤ b.date

theorem genFrom_date_pairwise (rc : ℕ → String → ℝ) (vr : ℕ → String → ℕ) :
    ∀ (i : ℕ) (ds : List ℕ), ds.Pairwise (· ≤ ·) →
      (genFrom rc vr i ds).Pairwise dateLE := by
  intro i ds
  induction ds generalizing i with
  | nil => intro _; simp [genFrom]
  | cons d t ih =>
      intro hs
      rw [List.pairwise_cons] at hs
      simp only [genFrom]
      refine List.pairwise_append.mpr ⟨?_, ih (i + 1) hs.2, ?_⟩
      · refine List.pairwise_map.mpr (pairsConfig_fst_pairwise.imp ?_)
        intro a b _
        exact le_refl d
      · intro a ha b hb
        obtain ⟨p, _, rfl⟩ := List.mem_map.mp ha
        have hbd : b.date ∈ t := date_mem_of_mem_genFrom rc vr _ _ _ hb
        exact hs.1 _ hbd

theorem rangeDays_sorted (s e : ℕ) : (rangeDays s e).Pairwise (· ≤ ·) := by
  unfold rangeDays
  rw [List.pairwise_map]
  exact (List.pairwise_lt_range _).imp (fun h => by omega)

theorem rangeDays_nodup (s e : ℕ) : (rangeDays s e).Nodup := by
  unfold rangeDays
  exact (List.nodup_range _).map (fun a b h => by omega)

theorem rangeDays_length (s e : ℕ) : (rangeDays s e).length = e - s + 1 := by
  simp [rangeDays]

/-! ### Helper lemmas: rounding and rates -/

theorem roundTiesEven_intCast (n : ℤ) : roundTiesEven (n : ℝ) = n := by
  unfold roundTiesEven
  rw [Int.fract_intCast]
  norm_num

theorem round4_pos {x : ℝ} (h : 1 / 10000 ≤ x) : 0 < round4 x := by
  unfold round4
  have h1 : (1 : ℝ) ≤ x * 10000 := by linarith
  have h2 : (1 : ℤ) ≤ roundTiesEven (x * 10000) := by
    unfold roundTiesEven
    split_ifs with hf hg hd
    · exact Int.le_floor.mpr (by exact_mod_cast h1)
    · exact_mod_cast le_trans h1 (Int.le_ceil (x * 10000))
    · exact Int.le_floor.mpr (by exact_mod_cast h1)
    · have h3 : (1 : ℤ) ≤ ⌊x * 10000⌋ := Int.le_floor.mpr (by exact_mod_cast h1)
      omega
  have h4 : (1 : ℝ) ≤ (roundTiesEven (x * 10000) : ℝ) := by exact_mod_cast h2
  exact div_pos (by linarith) (by norm_num)

theorem mkRate_neg : mkRate 0.85 0.01 0 (-200) < 0 := by
  have ht : trend 0 = 0 := by
    unfold trend
    norm_num
  have harg : (0.85 : ℝ) * (1 + trend 0 + 0.01 * (-200)) = ((-8500 : ℤ) : ℝ) / 10000 := by
    rw [ht]; norm_num
  unfold mkRate round4
  have h8 : (0.85 : ℝ) * (1 + trend 0 + 0.01 * (-200)) * 10000 = ((-8500 : ℤ) : ℝ) := by
    rw [harg]; norm_num
  rw [h8, roundTiesEven_intCast]
  norm_num

/-! ### Helper lemmas: sample statistics on small lists -/

theorem meanR_singleton (x : ℝ) : meanR [x] = x := by
  unfold meanR
  simp

theorem meanR_012 : meanR [(0 : ℝ), 1, 2] = 1 := by
  unfold meanR
  norm_num

theorem stdList_012 : stdList [(0 : ℝ), 1, 2] = some 1 := by
  unfold stdList
  rw [if_neg (by simp)]
  have hv : sampleVar [(0 : ℝ), 1, 2] = 1 := by
    unfold sampleVar
    rw [meanR_012]
    norm_num
  rw [hv, Real.sqrt_one]

/-! ### Helper lemmas: last elements, lookups, date groups -/

theorem getLast?_mem_self {α : Type} :
    ∀ (l : List α) (a : α), l.getLast? = some a → a ∈ l := by
  intro l
  induction l with
  | nil => intro a h; cases h
  | cons b t ih =>
      intro a h
      cases t with
      | nil =>
          rw [List.getLast?_singleton] at h
          rw [Option.some.injEq] at h
          rw [← h]
          exact List.mem_cons_self _ _
      | cons c t2 =>
          rw [List.getLast?_cons_cons] at h
          exact List.mem_cons_of_mem _ (ih a h)

theorem pairwise_dateLE_getLast :
    ∀ (l : List Row), l.Pairwise dateLE → ∀ a : Row, l.getLast? = some a →
      ∀ x ∈ l, x.date ≤ a.date := by
  intro l
  induction l with
  | nil => intro _ a h; cases h
  | cons b t ih =>
      intro hp a ha x hx
      rw [List.pairwise_cons] at hp
      cases t with
      | nil =>
          rw [List.getLast?_singleton, Option.some.injEq] at ha
          rcases List.mem_cons.mp hx with rfl | hx2
          · rw [← ha]
          · cases hx2
      | cons c t2 =>
          rw [List.getLast?_cons_cons] at ha
          rcases List.mem_cons.mp hx with rfl | hx2
          · exact hp.1 a (getLast?_mem_self _ _ ha)
          · exact ih hp.2 a ha x hx2

theorem lookup_graph (f : ℕ → ℝ) :
    ∀ (l : List ℕ) (d : ℕ), d ∈ l →
      ((l.map fun x => (x, f x)).lookup d) = some (f d) := by
  intro l
  induction l with
  | nil => intro d h; cases h
  | cons a t ih =>
      intro d h
      by_cases he : d = a
      · subst he
        simp [List.lookup]
      · have h2 : d ∈ t := by
          rcases List.mem_cons.mp h with rfl | h2
          · exact absurd rfl he
          · exact h2
        have hb : (d == a) = false := by simpa using he
        simp only [List.map_cons, List.lookup, hb]
        exact ih d h2

theorem filter_date_singleton :
    ∀ (view : List Row), (view.map Row.date).Nodup →
      ∀ r ∈ view, (view.filter fun x => x.date == r.date) = [r] := by
  intro view
  induction view with
  | nil => intro _ r hr; cases hr
  | cons a t ih =>
      intro hnd r hr
      rw [List.map_cons, List.nodup_cons] at hnd
      rcases List.mem_cons.mp hr with rfl | h2
      · rw [List.filter_cons, if_pos (by simp)]
        have hnil : (t.filter fun x => x.date == r.date) = [] := by
          apply List.filter_eq_nil_iff.mpr
          intro x hx hbeq
          exact hnd.1 ((beq_iff_eq.mp hbeq) ▸ List.mem_map_of_mem Row.date hx)
        rw [hnil]
      · have hne : (a.date == r.date) = false := by
          apply beq_eq_false_iff_ne.mpr
          intro he
          exact hnd.1 (he ▸ List.mem_map_of_mem Row.date h2)
        rw [List.filter_cons, if_neg (by simp [hne])]
        exact ih hnd.2 r h2

/-! ### Claim C2 -/

/-- C2 (counterexample): the claim says the generated dataset has exactly
365 × 6 = 2190 rows, but `pd.date_range('2023-01-01', '2024-01-01')`
includes both endpoints, giving 366 days; for a concrete pair of random
oracles `load_data` has 2196 rows, and 2196 ≠ 2190. -/
theorem c2_counterexample :
    (load_data (fun _ _ => 0) (fun _ _ => 0)).length = 2196 ∧ (2196 : ℕ) ≠ 2190 := by
  constructor
  · unfold load_data generate
    rw [genFrom_length, rangeDays_length]
    decide
  · decide

/-- C2 (amended): for every pair of random oracles, the generated dataset
contains exactly 366 × 6 = 2196 rows — 366 consecutive days (both endpoints
of the range being included) times the 6 configured currency pairs. -/
theorem c2_dataset_size (rc : ℕ → String → ℝ) (vr : ℕ → String → ℕ) :
    (load_data rc vr).length = 2196 ∧ 2196 = 366 * 6 := by
  constructor
  · unfold load_data generate
    rw [genFrom_length, rangeDays_length]
    decide
  · decide

/-! ### Claim C3 -/

/-- C3 (counterexample): a row produced by the generator need not have a
positive rate.  With the standard-normal oracle returning −200 (an
admissible value for a normal draw), the USD/EUR row of day 0 gets
`rate = round(0.85 * (1 + sin 0 * 0.05 + 0.01 * (−200)), 4) = −0.85 < 0`. -/
theorem c3_counterexample :
    ∃ r ∈ generate [0] (fun _ _ => -200) (fun _ _ => 1000000), r.rate < 0 := by
  refine ⟨{ date := 0, pair := "USD/EUR", rate := mkRate 0.85 0.01 0 (-200),
            volume := 1000000 }, ?_, mkRate_neg⟩
  simp only [generate, genFrom, List.append_nil]
  exact List.mem_map.mpr ⟨("USD/EUR", 0.85, 0.01), by simp [pairsConfig], rfl⟩

/-- C3 (amended): for every duplicate-free date range and random oracles,
`generate` produces exactly `|range| × 6` rows with pairwise-distinct
(date, pair) keys; every volume obeys the `np.random.randint` contract
`[1000000, 8000000)` (taken as a hypothesis on the volume oracle); and a
row's rate is positive whenever its raw value
`base * (1 + trend + vol * z)` is at least `1/10000` — but positivity is
not guaranteed for arbitrary normal draws (see the counterexample). -/
theorem c3_generate_shape (ds : List ℕ) (rc : ℕ → String → ℝ)
    (vr : ℕ → String → ℕ) (hnd : ds.Nodup)
    (hv : ∀ i p, 1000000 ≤ vr i p ∧ vr i p < 8000000) :
    (generate ds rc vr).length = ds.length * 6
    ∧ (∀ r ∈ generate ds rc vr, 1000000 ≤ r.volume ∧ r.volume < 8000000)
    ∧ (generate ds rc vr).Pairwise keyNe
    ∧ ∀ (base vol : ℝ) (i : ℕ) (z : ℝ),
        1 / 10000 ≤ base * (1 + trend i + vol * z) → 0 < mkRate base vol i z := by
  refine ⟨genFrom_length rc vr 0 ds, ?_, genFrom_key_pairwise rc vr 0 ds hnd, ?_⟩
  · intro r hr
    obtain ⟨k, c, hkc⟩ := volume_of_mem_genFrom rc vr 0 ds r hr
    rw [hkc]
    exact hv k c
  · intro base vol i z h
    exact round4_pos h

/-- C3 (witness): the amended statement instantiated at the two-day range
`[0, 1]`, the zero normal oracle and the constant volume oracle 1000000. -/
theorem c3_witness :
    ([0, 1] : List ℕ).Nodup
    ∧ (∀ i p, 1000000 ≤ (fun (_ : ℕ) (_ : String) => 1000000) i p
        ∧ (fun (_ : ℕ) (_ : String) => 1000000) i p < 8000000)
    ∧ ((generate [0, 1] (fun _ _ => 0) (fun _ _ => 1000000)).length = ([0, 1] : List ℕ).length * 6
      ∧ (∀ r ∈ generate [0, 1] (fun _ _ => 0) (fun _ _ => 1000000),
          1000000 ≤ r.volume ∧ r.volume < 8000000)
      ∧ (generate [0, 1] (fun _ _ => 0) (fun _ _ => 1000000)).Pairwise keyNe
      ∧ ∀ (base vol : ℝ) (i : ℕ) (z : ℝ),
          1 / 10000 ≤ base * (1 + trend i + vol * z) → 0 < mkRate base vol i z) :=
  ⟨by decide, fun i p => by norm_num,
    c3_generate_shape [0, 1] (fun _ _ => 0) (fun _ _ => 1000000) (by decide)
      (fun i p => by norm_num)⟩

/-! ### Claim C4 -/

/-- C4: the filtered view keeps exactly the rows of the dataset whose pair
is among the selected currencies and whose date is at least the derived
start date; and the start date is `max(date) − 30/90/180` days for the
three bounded periods and `min(date)` for the full-year (else) branch. -/
theorem c4_filter_characterization (df : List Row) (cs : List String)
    (p : String) (r : Row) :
    (r ∈ filtered_data df cs p ↔ r ∈ df ∧ r.pair ∈ cs ∧ start_date df p ≤ r.date)
    ∧ start_date df "Last 30 Days" = today df - 30
    ∧ start_date df "Last 90 Days" = today df - 90
    ∧ start_date df "Last 6 Months" = today df - 180
    ∧ start_date df "Last Year" = earliest df :=
  ⟨mem_filtered_data, rfl, rfl, rfl, rfl⟩

/-! ### Claim C5 -/

/-- C5: whenever the filtered view is empty, the interaction ends in the
empty-selection warning (`st.warning` followed by `st.stop()`): the result
carries no summary metrics, statistics, basket series or risk buckets. -/
theorem c5_empty_selection_halts (df : List Row) (cs : List String)
    (p : String) (h : filtered_data df cs p = []) :
    runDashboard df cs p = DashResult.emptyWarning := by
  simp [runDashboard, h]

/-- C5 (witness): the empty dataset with an empty selection filters to the
empty view, and the dashboard run ends in the warning. -/
theorem c5_witness :
    filtered_data [] [] "Last 30 Days" = []
    ∧ runDashboard [] [] "Last 30 Days" = DashResult.emptyWarning :=
  ⟨rfl, c5_empty_selection_halts [] [] "Last 30 Days" rfl⟩

/-! ### Claim C8 -/

/-- C8: filtering is idempotent — re-running the filter on an
already-filtered view with the same currencies and period (the start date
being re-derived from the view, as the code would) returns the view
unchanged. -/
theorem c8_filter_idempotent (df : List Row) (cs : List String) (p : String) :
    filtered_data (filtered_data df cs p) cs p = filtered_data df cs p := by
  apply List.filter_eq_self.mpr
  intro r hr
  have hm := mem_filtered_data.mp hr
  have hsub : ∀ x ∈ filtered_data df cs p, x ∈ df :=
    fun x hx => List.mem_of_mem_filter hx
  have hstart : start_date (filtered_data df cs p) p ≤ r.date := by
    rcases start_date_cases p with ⟨n, _, hn⟩ | hall
    · have hmono : today (filtered_data df cs p) ≤ today df :=
        today_le_of_subset hsub
      have hd : start_date df p ≤ r.date := hm.2.2
      rw [hn] at hd ⊢
      omega
    · rw [hall]
      exact earliest_le hr
  simp only [Bool.and_eq_true, decide_eq_true_eq]
  exact ⟨by simpa using hm.2.1, hstart⟩

/-! ### Claim C1 -/

/-- C1 (counterexample): the classification actually applied to
`SummaryMetrics.risk_level` (line 120) and `PairStatRow.risk_level`
(line 227) uses strict comparisons (`vol > 5`, `vol > 1`), so a standard
deviation of exactly 1.0 is classified Low (the claim says Medium) and
exactly 5.0 is classified Medium (the claim says High); a concrete view
with rates 0, 1, 2 has pooled standard deviation exactly 1 and its summary
risk level is Low. -/
theorem c1_counterexample :
    risk (some 1) = RiskTier.Low
    ∧ risk (some 5) = RiskTier.Medium
    ∧ (summary [{ date := 0, pair := "A", rate := 0, volume := 0 },
                { date := 1, pair := "A", rate := 1, volume := 0 },
                { date := 2, pair := "A", rate := 2, volume := 0 }]
        ["A"]).risk_level = RiskTier.Low
    ∧ RiskTier.Low ≠ RiskTier.Medium ∧ RiskTier.Medium ≠ RiskTier.High := by
  have h1 : risk (some 1) = RiskTier.Low := by
    simp only [risk]
    rw [if_neg (by norm_num), if_neg (by norm_num)]
  refine ⟨h1, ?_, ?_, by decide, by decide⟩
  · simp only [risk]
    rw [if_neg (by norm_num), if_pos (by norm_num)]
  · show risk (stdList [(0 : ℝ), 1, 2]) = RiskTier.Low
    rw [stdList_012, h1]

/-- C1 (amended): the inline classification shared by lines 119–121 and
226–227 is High iff stddev > 5, Medium iff 1 < stddev ≤ 5, and Low iff
stddev ≤ 1 (both boundaries exclusive, so 1.0 maps to Low and 5.0 to
Medium); the summary risk level applies it to the pooled standard
deviation of the view, and every statistics row for a pair with data
applies it to that pair's standard deviation.  (The boundary-inclusive
rule of the claim matches only the risk-bucket section, lines 251–273.) -/
theorem c1_risk_thresholds :
    (∀ v : ℝ, (risk (some v) = RiskTier.High ↔ 5 < v)
      ∧ (risk (some v) = RiskTier.Medium ↔ 1 < v ∧ v ≤ 5)
      ∧ (risk (some v) = RiskTier.Low ↔ v ≤ 1))
    ∧ (∀ (view : List Row) (cs : List String),
        (summary view cs).risk_level = risk (stdList (view.map Row.rate)))
    ∧ (∀ (view : List Row) (cs : List String) (c : String), c ∈ cs →
        0 < (pairRates view c).length →
        ∃ s ∈ stats_data view cs, s.pair = c
          ∧ s.volatility = stdList (pairRates view c)
          ∧ s.risk_level = risk (stdList (pairRates view c))) := by
  refine ⟨?_, fun view cs => rfl, ?_⟩
  · intro v
    simp only [risk]
    split_ifs with h5 h1
    · refine ⟨⟨fun _ => h5, fun _ => rfl⟩, ?_, ?_⟩
      · constructor
        · intro h; cases h
        · intro h; exact absurd h5 (not_lt.mpr h.2)
      · constructor
        · intro h; cases h
        · intro h; exact absurd h5 (not_lt.mpr (by linarith))
    · refine ⟨?_, ⟨fun _ => ⟨h1, not_lt.mp h5⟩, fun _ => rfl⟩, ?_⟩
      · constructor
        · intro h; cases h
        · intro h; exact absurd h h5
      · constructor
        · intro h; cases h
        · intro h; exact absurd h1 (not_lt.mpr h)
    · refine ⟨?_, ?_, ⟨fun _ => not_lt.mp h1, fun _ => rfl⟩⟩
      · constructor
        · intro h; cases h
        · intro h; exact absurd h h5
      · constructor
        · intro h; cases h
        · intro h; exact absurd h.1 h1
  · intro view cs c hc hlen
    refine ⟨{ pair := c,
              current_rate := (pairRates view c).getLast?.getD 0,
              peak_rate := ((pairRates view c).max?).getD 0,
              lowest_rate := ((pairRates view c).min?).getD 0,
              average_rate := meanR (pairRates view c),
              volatility := stdList (pairRates view c),
              risk_level := risk (stdList (pairRates view c)) }, ?_, rfl, rfl, rfl⟩
    apply List.mem_filterMap.mpr
    refine ⟨c, hc, ?_⟩
    simp only [mkStat]
    rw [if_pos hlen]

/-- C1 (witness): the amended statistics clause instantiated at a concrete
three-row view of pair "A" with rates 0, 1, 2. -/
theorem c1_witness :
    "A" ∈ ["A"]
    ∧ 0 < (pairRates [{ date := 0, pair := "A", rate := 0, volume := 0 },
                      { date := 1, pair := "A", rate := 1, volume := 0 },
                      { date := 2, pair := "A", rate := 2, volume := 0 }] "A").length
    ∧ ∃ s ∈ stats_data [{ date := 0, pair := "A", rate := 0, volume := 0 },
                        { date := 1, pair := "A", rate := 1, volume := 0 },
                        { date := 2, pair := "A", rate := 2, volume := 0 }] ["A"],
        s.pair = "A"
        ∧ s.volatility = stdList (pairRates
            [{ date := 0, pair := "A", rate := 0, volume := 0 },
             { date := 1, pair := "A", rate := 1, volume := 0 },
             { date := 2, pair := "A", rate := 2, volume := 0 }] "A")
        ∧ s.risk_level = risk (stdList (pairRates
            [{ date := 0, pair := "A", rate := 0, volume := 0 },
             { date := 1, pair := "A", rate := 1, volume := 0 },
             { date := 2, pair := "A", rate := 2, volume := 0 }] "A")) :=
  ⟨by decide, by decide,
    c1_risk_thresholds.2.2 _ ["A"] "A" (by decide) (by decide)⟩

/-! ### Claim C9 -/

/-- C9: a selected pair with no rows in a (non-empty) filtered view is
omitted from the statistics table and excluded from all three risk
buckets: its standard deviation over zero rows is NaN, every comparison
with NaN is false, and the statistics loop skips series of length zero, so
no NaN reaches any output. -/
theorem c9_missing_pair_skipped (view : List Row) (cs : List String)
    (c : String) (hne : view.length ≠ 0) (hc : c ∈ cs)
    (h0 : pairRows view c = []) :
    (∀ s ∈ stats_data view cs, s.pair ≠ c)
    ∧ c ∉ low_risk cs view ∧ c ∉ med_risk cs view ∧ c ∉ high_risk cs view := by
  have hrates : pairRates view c = [] := by
    unfold pairRates
    rw [h0]
    rfl
  have hstd : pairStd view c = none := by
    unfold pairStd
    rw [hrates]
    rfl
  refine ⟨?_, ?_, ?_, ?_⟩
  · intro s hs hpair
    obtain ⟨c2, hc2, hmk⟩ := List.mem_filterMap.mp hs
    simp only [mkStat] at hmk
    split_ifs at hmk with hl
    · have hp : s.pair = c2 := by
        rw [Option.some.injEq] at hmk
        rw [← hmk]
      rw [hpair] at hp
      rw [← hp] at hl
      rw [hrates] at hl
      exact absurd hl (by simp)
  · intro hm
    have h2 := (List.mem_filter.mp hm).2
    rw [hstd] at h2
    simp [ltNaN] at h2
  · intro hm
    have h2 := (List.mem_filter.mp hm).2
    rw [Bool.and_eq_true] at h2
    have h3 := h2.1
    rw [hstd] at h3
    simp [geNaN] at h3
  · intro hm
    have h2 := (List.mem_filter.mp hm).2
    rw [hstd] at h2
    simp [geNaN] at h2

/-- C9 (witness): selection ["A", "B"] over a one-row view containing only
pair "B": pair "A" is omitted from the statistics and from every bucket. -/
theorem c9_witness :
    ([{ date := 0, pair := "B", rate := 1, volume := 1 }] : List Row).length ≠ 0
    ∧ "A" ∈ ["A", "B"]
    ∧ pairRows [{ date := 0, pair := "B", rate := 1, volume := 1 }] "A" = []
    ∧ ((∀ s ∈ stats_data [{ date := 0, pair := "B", rate := 1, volume := 1 }]
          ["A", "B"], s.pair ≠ "A")
      ∧ "A" ∉ low_risk ["A", "B"] [{ date := 0, pair := "B", rate := 1, volume := 1 }]
      ∧ "A" ∉ med_risk ["A", "B"] [{ date := 0, pair := "B", rate := 1, volume := 1 }]
      ∧ "A" ∉ high_risk ["A", "B"] [{ date := 0, pair := "B", rate := 1, volume := 1 }]) :=
  ⟨by decide, by decide, rfl,
    c9_missing_pair_skipped _ ["A", "B"] "A" (by decide) (by decide) rfl⟩

/-! ### Claim C10 -/

/-- C10: every selected pair whose per-pair standard deviation in the view
is an actual number (not NaN, which requires at least two rows) lands in
exactly one of the three risk buckets: low iff stddev < 1, medium iff
1 ≤ stddev < 5, high iff stddev ≥ 5, and these three cases are mutually
exclusive and exhaustive. -/
theorem c10_buckets_partition (view : List Row) (cs : List String)
    (c : String) (v : ℝ) (hc : c ∈ cs) (hstd : pairStd view c = some v) :
    (c ∈ low_risk cs view ∧ c ∉ med_risk cs view ∧ c ∉ high_risk cs view)
    ∨ (c ∉ low_risk cs view ∧ c ∈ med_risk cs view ∧ c ∉ high_risk cs view)
    ∨ (c ∉ low_risk cs view ∧ c ∉ med_risk cs view ∧ c ∈ high_risk cs view) := by
  have hlow : c ∈ low_risk cs view ↔ v < 1 := by
    simp [low_risk, List.mem_filter, hstd, ltNaN, hc]
  have hmed : c ∈ med_risk cs view ↔ 1 ≤ v ∧ v < 5 := by
    simp [med_risk, List.mem_filter, hstd, geNaN, ltNaN, hc]
  have hhigh : c ∈ high_risk cs view ↔ 5 ≤ v := by
    simp [high_risk, List.mem_filter, hstd, geNaN, hc]
  rcases lt_or_le v 1 with h1 | h1
  · exact Or.inl ⟨hlow.mpr h1,
      fun hm => absurd (hmed.mp hm).1 (not_le.mpr h1),
      fun hh => absurd (hhigh.mp hh) (by linarith)⟩
  rcases lt_or_le v 5 with h5 | h5
  · exact Or.inr (Or.inl ⟨fun hl => absurd (hlow.mp hl) (not_lt.mpr h1),
      hmed.mpr ⟨h1, h5⟩,
      fun hh => absurd (hhigh.mp hh) (not_le.mpr h5)⟩)
  · exact Or.inr (Or.inr ⟨fun hl => absurd (hlow.mp hl) (by linarith),
      fun hm => absurd (hmed.mp hm).2 (not_lt.mpr h5),
      hhigh.mpr h5⟩)

/-- C10 (witness): pair "A" with rates 0, 1, 2 has standard deviation
exactly 1 and lands in the medium bucket only. -/
theorem c10_witness :
    "A" ∈ ["A"]
    ∧ pairStd [{ date := 0, pair := "A", rate := 0, volume := 0 },
               { date := 1, pair := "A", rate := 1, volume := 0 },
               { date := 2, pair := "A", rate := 2, volume := 0 }] "A" = some 1
    ∧ (("A" ∈ low_risk ["A"] [{ date := 0, pair := "A", rate := 0, volume := 0 },
                              { date := 1, pair := "A", rate := 1, volume := 0 },
                              { date := 2, pair := "A", rate := 2, volume := 0 }]
        ∧ "A" ∉ med_risk ["A"] [{ date := 0, pair := "A", rate := 0, volume := 0 },
                                { date := 1, pair := "A", rate := 1, volume := 0 },
                                { date := 2, pair := "A", rate := 2, volume := 0 }]
        ∧ "A" ∉ high_risk ["A"] [{ date := 0, pair := "A", rate := 0, volume := 0 },
                                 { date := 1, pair := "A", rate := 1, volume := 0 },
                                 { date := 2, pair := "A", rate := 2, volume := 0 }])
      ∨ ("A" ∉ low_risk ["A"] [{ date := 0, pair := "A", rate := 0, volume := 0 },
                               { date := 1, pair := "A", rate := 1, volume := 0 },
                               { date := 2, pair := "A", rate := 2, volume := 0 }]
        ∧ "A" ∈ med_risk ["A"] [{ date := 0, pair := "A", rate := 0, volume := 0 },
                                { date := 1, pair := "A", rate := 1, volume := 0 },
                                { date := 2, pair := "A", rate := 2, volume := 0 }]
        ∧ "A" ∉ high_risk ["A"] [{ date := 0, pair := "A", rate := 0, volume := 0 },
                                 { date := 1, pair := "A", rate := 1, volume := 0 },
                                 { date := 2, pair := "A", rate := 2, volume := 0 }])
      ∨ ("A" ∉ low_risk ["A"] [{ date := 0, pair := "A", rate := 0, volume := 0 },
                               { date := 1, pair := "A", rate := 1, volume := 0 },
                               { date := 2, pair := "A", rate := 2, volume := 0 }]
        ∧ "A" ∉ med_risk ["A"] [{ date := 0, pair := "A", rate := 0, volume := 0 },
                                { date := 1, pair := "A", rate := 1, volume := 0 },
                                { date := 2, pair := "A", rate := 2, volume := 0 }]
        ∧ "A" ∈ high_risk ["A"] [{ date := 0, pair := "A", rate := 0, volume := 0 },
                                 { date := 1, pair := "A", rate := 1, volume := 0 },
                                 { date := 2, pair := "A", rate := 2, volume := 0 }])) := by
  have hstd : pairStd [{ date := 0, pair := "A", rate := 0, volume := 0 },
                       { date := 1, pair := "A", rate := 1, volume := 0 },
                       { date := 2, pair := "A", rate := 2, volume := 0 }] "A" = some 1 := by
    have hr : pairRates [{ date := 0, pair := "A", rate := 0, volume := 0 },
                         { date := 1, pair := "A", rate := 1, volume := 0 },
                         { date := 2, pair := "A", rate := 2, volume := 0 }] "A"
        = [(0 : ℝ), 1, 2] := rfl
    unfold pairStd
    rw [hr, stdList_012]
  exact ⟨by decide, hstd, c10_buckets_partition _ ["A"] "A" 1 (by decide) hstd⟩

/-! ### Claim C6 -/

/-- C6: the generated dataset is weakly sorted by date (so every filtered
view of it is too), and on any date-sorted dataset, every statistics row
reports as `current_rate` the rate of a row of the pair inside the
filtered view whose date is maximal there — `curr_data.iloc[-1]` really is
the pair's latest observation in the filtered (not the full) dataset. -/
theorem c6_current_rate_is_latest :
    (∀ (rc : ℕ → String → ℝ) (vr : ℕ → String → ℕ),
        (load_data rc vr).Pairwise dateLE)
    ∧ ∀ df : List Row, df.Pairwise dateLE →
        ∀ (cs : List String) (p : String) (c : String),
          0 < (pairRows (filtered_data df cs p) c).length →
          ∃ r ∈ pairRows (filtered_data df cs p) c,
            (∀ x ∈ pairRows (filtered_data df cs p) c, x.date ≤ r.date)
            ∧ ∀ s ∈ stats_data (filtered_data df cs p) cs,
                s.pair = c → s.current_rate = r.rate := by
  constructor
  · intro rc vr
    exact genFrom_date_pairwise rc vr 0 _ (rangeDays_sorted _ _)
  · intro df hdf cs p c hlen
    have hvp : (filtered_data df cs p).Pairwise dateLE := hdf.filter _
    have hcp : (pairRows (filtered_data df cs p) c).Pairwise dateLE := hvp.filter _
    have hne : pairRows (filtered_data df cs p) c ≠ [] := by
      intro h
      rw [h] at hlen
      simp at hlen
    obtain ⟨r, hr⟩ : ∃ r, (pairRows (filtered_data df cs p) c).getLast? = some r := by
      cases hq : (pairRows (filtered_data df cs p) c).getLast? with
      | none => exact absurd (List.getLast?_eq_none_iff.mp hq) hne
      | some r => exact ⟨r, rfl⟩
    refine ⟨r, getLast?_mem_self _ _ hr, pairwise_dateLE_getLast _ hcp r hr, ?_⟩
    intro s hs hpair
    obtain ⟨c2, hc2, hmk⟩ := List.mem_filterMap.mp hs
    simp only [mkStat] at hmk
    split_ifs at hmk with hl
    rw [Option.some.injEq] at hmk
    have hp2 : s.pair = c2 := by rw [← hmk]
    have hcc : c2 = c := by rw [← hp2, hpair]
    have hcur : s.current_rate = (pairRates (filtered_data df cs p) c2).getLast?.getD 0 := by
      rw [← hmk]
    rw [hcc] at hcur
    have hmap : (pairRates (filtered_data df cs p) c).getLast? = some r.rate := by
      unfold pairRates
      rw [List.getLast?_map, hr]
      rfl
    rw [hcur, hmap]
    rfl

/-- C6 (witness): a two-row date-sorted dataset for pair "A": the
statistics clause applies with the full-year period. -/
theorem c6_witness :
    ([{ date := 0, pair := "A", rate := 1, volume := 1 },
      { date := 1, pair := "A", rate := 2, volume := 1 }] : List Row).Pairwise dateLE
    ∧ 0 < (pairRows (filtered_data
        [{ date := 0, pair := "A", rate := 1, volume := 1 },
         { date := 1, pair := "A", rate := 2, volume := 1 }] ["A"] "Last Year") "A").length
    ∧ ∃ r ∈ pairRows (filtered_data
        [{ date := 0, pair := "A", rate := 1, volume := 1 },
         { date := 1, pair := "A", rate := 2, volume := 1 }] ["A"] "Last Year") "A",
        (∀ x ∈ pairRows (filtered_data
            [{ date := 0, pair := "A", rate := 1, volume := 1 },
             { date := 1, pair := "A", rate := 2, volume := 1 }] ["A"] "Last Year") "A",
          x.date ≤ r.date)
        ∧ ∀ s ∈ stats_data (filtered_data
            [{ date := 0, pair := "A", rate := 1, volume := 1 },
             { date := 1, pair := "A", rate := 2, volume := 1 }] ["A"] "Last Year") ["A"],
            s.pair = "A" → s.current_rate = r.rate := by
  have hsorted : ([{ date := 0, pair := "A", rate := 1, volume := 1 },
      { date := 1, pair := "A", rate := 2, volume := 1 }] : List Row).Pairwise dateLE := by
    simp [dateLE]
  have hlen : 0 < (pairRows (filtered_data
      [{ date := 0, pair := "A", rate := 1, volume := 1 },
       { date := 1, pair := "A", rate := 2, volume := 1 }] ["A"] "Last Year") "A").length := by
    decide
  exact ⟨hsorted, hlen,
    c6_current_rate_is_latest.2 _ hsorted ["A"] "Last Year" "A" hlen⟩

/-! ### Claim C7 -/

/-- Value of the basket series at any date of the view: the unweighted
mean of the rates of the rows carrying that date. -/
theorem basket_value_at (view : List Row) (d : ℕ) (hd : d ∈ view.map Row.date) :
    (basket_data view).lookup d =
      some (meanR ((view.filter fun r => r.date == d).map Row.rate)) := by
  unfold basket_data
  apply lookup_graph
  rw [(List.mergeSort_perm _ _).mem_iff]
  exact List.mem_dedup.mpr hd

/-- C7: for every date present in the filtered view, the basket value at
that date is the unweighted mean of the rates of all rows of the view on
that date; and for a view whose rows all belong to one pair (with one row
per date), the basket value at each row's date is that row's rate. -/
theorem c7_basket_is_daily_mean :
    (∀ (view : List Row) (d : ℕ), d ∈ view.map Row.date →
        (basket_data view).lookup d =
          some (meanR ((view.filter fun r => r.date == d).map Row.rate)))
    ∧ ∀ (view : List Row) (c : String), (∀ r ∈ view, r.pair = c) →
        (view.map Row.date).Nodup →
        ∀ r ∈ view, (basket_data view).lookup r.date = some r.rate := by
  refine ⟨fun view d hd => basket_value_at view d hd, ?_⟩
  intro view c hpair hnd r hr
  rw [basket_value_at view r.date (List.mem_map_of_mem Row.date hr)]
  rw [filter_date_singleton view hnd r hr]
  rw [Option.some.injEq]
  show meanR [r.rate] = r.rate
  exact meanR_singleton _

/-- C7 (witness): a one-pair, one-row view: the basket value on the single
date equals that pair's rate. -/
theorem c7_witness :
    (∀ r ∈ ([{ date := 0, pair := "A", rate := 2, volume := 1 }] : List Row),
        r.pair = "A")
    ∧ (([{ date := 0, pair := "A", rate := 2, volume := 1 }] : List Row).map
        Row.date).Nodup
    ∧ (basket_data [{ date := 0, pair := "A", rate := 2, volume := 1 }]).lookup 0
        = some 2 :=
  ⟨by decide, by decide,
    c7_basket_is_daily_mean.2 [{ date := 0, pair := "A", rate := 2, volume := 1 }]
      "A" (by decide) (by decide)
      { date := 0, pair := "A", rate := 2, volume := 1 }
      (List.mem_singleton.mpr rfl)⟩
